import Mathlib

/-!
Verification development for the "Buried Giant" world-map client.

The definitions below are shallow embeddings of the program's functions:
* the deterministic hash / spatial layout engine of `src/app.ts`
  (`hashString`, `placeElements`),
* the list-response normalizer of the auth block
  (`parseListResponse` in `sdk-response-adapter.ts`),
* the session store (`AuthManager` of `auth-manager.ts`) as an explicit
  state-transition system with the remote API supplied as an oracle,
* the resource gateway (`SDKManager.getResource` of `sdk-manager.ts`),
* the wheel-to-zoom handler and the window-listener registrations of
  `renderMap` in `src/app.ts`.

JavaScript numbers are embedded as `ℚ` (all the arithmetic the claims are
about is exact integer / small-decimal arithmetic); the 32-bit wrap-around
of JS bitwise operators is made explicit through `toInt32`.
-/

namespace BuriedGiant

/-! ### Map constants (`src/app.ts` lines 58-59, 195-197) -/

def MAP_W : ℚ := 2400
def MAP_H : ℚ := 1600
def margin : ℚ := 80
def usableW : ℚ := MAP_W - margin * 2
def usableH : ℚ := MAP_H - margin * 2

/-- The usable width as the natural number it is in the source (2400 - 80*2);
JS `%` on nonnegative integers is `Nat.mod`. -/
def usableWn : ℕ := 2400 - 80 * 2

/-- The usable height as the natural number it is in the source. -/
def usableHn : ℕ := 1600 - 80 * 2

/-! ### The hash (`src/app.ts` lines 186-192)

`hash = ((hash << 5) + hash + str.charCodeAt(i)) & 0xffffffff` keeps `hash`
a signed 32-bit value: `<<` truncates to Int32, the additions are exact in
doubles at this magnitude, and `& 0xffffffff` is `ToInt32` (the mask is -1
as an Int32).  `Math.abs` at the end gives the natural number used as a
positional seed. -/

/-- JavaScript `ToInt32`: reduce mod 2^32 into the signed window. -/
def toInt32 (n : ℤ) : ℤ :=
  let m := n % 4294967296
  if m < 2147483648 then m else m - 4294967296

/-- One loop iteration of `hashString`: `((hash << 5) + hash + c) & 0xffffffff`. -/
def hashStep (hash : ℤ) (c : ℕ) : ℤ :=
  toInt32 (toInt32 (toInt32 hash * 32) + hash + c)

/-- `hashString` (`src/app.ts:186`): djb2 over the code units, absolute value. -/
def hashString (s : String) : ℕ :=
  (s.data.foldl (fun h c => hashStep h c.toNat) 5381).natAbs

/-! ### Elements and placement (`src/app.ts` lines 12-29, 194-240) -/

/-- A world element; `description` stands for the payload fields placement
never reads (the source spreads the whole record into the output). -/
structure WorldElement where
  id : String
  name : String
  description : Option String
  type : String
  deriving Repr, DecidableEq

/-- An element with its assigned map coordinate. -/
structure PlacedElement extends WorldElement where
  x : ℚ
  y : ℚ
  deriving Repr, DecidableEq

/-- The coordinate part of a placed element. -/
def coord (p : PlacedElement) : ℚ × ℚ := (p.x, p.y)

/-- The data placement may read: id, name, type. -/
def proj (e : WorldElement) : String × String × String := (e.id, e.name, e.type)

/-- External math library surface used by the layout (`Math.PI`, `Math.cos`,
`Math.sin`), passed as a parameter of the embedding. -/
structure JSMath where
  pi : ℚ
  cos : ℚ → ℚ
  sin : ℚ → ℚ

/-- `137.508 * (Math.PI / 180)` (`src/app.ts:204`). -/
def goldenAngle (M : JSMath) : ℚ := 137.508 * (M.pi / 180)

/-- Inner collision scan (`src/app.ts` lines 222-230): some already-placed
point lies strictly within 60 units.  The source compares
`Math.sqrt(dx*dx + dy*dy) < 60`; for real square roots that is equivalent to
the squared comparison used here (`sqrt_lt_sixty_iff` below). -/
def tooCloseAny (placed : List PlacedElement) (x y : ℚ) : Bool :=
  placed.any (fun p =>
    decide ((p.x - x) * (p.x - x) + (p.y - y) * (p.y - y) < 60 * 60))

/-- The retry loop of `placeElements` (`src/app.ts` lines 221-234):
`fuel` counts the remaining iterations of `for (attempt = 0; attempt < 5; …)`,
`attempt` is the loop counter, `xy` the current candidate.  When the current
candidate is too close to an already-placed point the seeds are perturbed by
`attempt * 197` / `attempt * 131` and the loop continues. -/
def nudgeLoop (placed : List PlacedElement) (h h2 : ℕ) :
    ℕ → ℕ → ℚ × ℚ → ℚ × ℚ
  | 0, _, xy => xy
  | fuel + 1, attempt, xy =>
    if tooCloseAny placed xy.1 xy.2 then
      nudgeLoop placed h h2 fuel (attempt + 1)
        (margin + (((h + attempt * 197) % usableWn : ℕ) : ℚ),
         margin + (((h2 + attempt * 131) % usableHn : ℕ) : ℚ))
    else xy

/-- Placement of one satellite (`src/app.ts` lines 214-237): hash seeds from
`id + name` and `name + type`, initial candidate, bounded nudge, push. -/
def satPlace (placed : List PlacedElement) (el : WorldElement) : List PlacedElement :=
  let h := hashString (el.id ++ el.name)
  let h2 := hashString (el.name ++ el.type)
  let x : ℚ := margin + ((h % usableWn : ℕ) : ℚ)
  let y : ℚ := margin + ((h2 % usableHn : ℕ) : ℚ)
  let xy := nudgeLoop placed h h2 5 0 (x, y)
  placed ++ [⟨el, xy.1, xy.2⟩]

/-- Spiral placement of the anchors (`src/app.ts` lines 204-211). -/
def placeAnchors (M : JSMath) (locations : List WorldElement) : List PlacedElement :=
  locations.enum.map (fun ie =>
    let angle : ℚ := (ie.1 : ℚ) * goldenAngle M
    let radius : ℚ := 0.2 + ((ie.1 : ℚ) / max ((locations.length : ℕ) : ℚ) 1) * 0.3
    ⟨ie.2,
     margin + usableW / 2 + M.cos angle * radius * usableW / 2,
     margin + usableH / 2 + M.sin angle * radius * usableH / 2⟩)

/-- `placeElements` (`src/app.ts` lines 194-240): anchors ("location" type)
on the golden-angle spiral first, then every other element hash-placed with
bounded collision avoidance, appended in input order. -/
def placeElements (M : JSMath) (elements : List WorldElement) : List PlacedElement :=
  let locations := elements.filter (fun e => e.type == "location")
  let others := elements.filter (fun e => e.type != "location")
  others.foldl satPlace (placeAnchors M locations)

/-- The k-th x-candidate of the nudge loop (`margin + ((h + k*197) % usableW)`). -/
def candX (h k : ℕ) : ℚ := margin + (((h + k * 197) % usableWn : ℕ) : ℚ)

/-- The k-th y-candidate of the nudge loop (`margin + ((h2 + k*131) % usableH)`). -/
def candY (h2 k : ℕ) : ℚ := margin + (((h2 + k * 131) % usableHn : ℕ) : ℚ)

/-- The coordinate of the i-th of n anchors. -/
def anchorCoord (M : JSMath) (n i : ℕ) : ℚ × ℚ :=
  (margin + usableW / 2 +
     M.cos ((i : ℚ) * goldenAngle M) * (0.2 + ((i : ℚ) / max ((n : ℕ) : ℚ) 1) * 0.3)
       * usableW / 2,
   margin + usableH / 2 +
     M.sin ((i : ℚ) * goldenAngle M) * (0.2 + ((i : ℚ) / max ((n : ℕ) : ℚ) 1) * 0.3)
       * usableH / 2)

/-- Being inside the margin-inset region of the 2400x1600 canvas. -/
def inCanvas (p : PlacedElement) : Prop :=
  margin ≤ p.x ∧ p.x < MAP_W - margin ∧ margin ≤ p.y ∧ p.y < MAP_H - margin

/-- A payload-free element whose two hash seeds are both `hashString ""`. -/
def dummyElement : WorldElement := ⟨"", "", none, ""⟩

/-- Already-placed points sitting exactly on the five nudge candidates of the
seeds `hashString "" = 5381`, so that every attempt collides. -/
def crowdedPlaced : List PlacedElement :=
  [⟨dummyElement, 981, 1141⟩, ⟨dummyElement, 1178, 1272⟩, ⟨dummyElement, 1375, 1403⟩,
   ⟨dummyElement, 1572, 94⟩, ⟨dummyElement, 1769, 225⟩]

/-! ### The list-response normalizer
(`src/auth/utils/sdk-response-adapter.ts`, `parseListResponse`, lines 38-73)

Arbitrary JSON-ish JavaScript values are embedded as `JSValue`; `undefined`
models `undefined`, which property access on a missing key produces. -/

inductive JSValue where
  | null
  | undefined
  | bool (b : Bool)
  | num (q : ℚ)
  | str (s : String)
  | arr (elems : List JSValue)
  | obj (fields : List (String × JSValue))
  deriving Repr

/-- JavaScript truthiness ('' and 0 and null and undefined are falsy). -/
def truthy : JSValue → Bool
  | .null => false
  | .undefined => false
  | .bool b => b
  | .num q => decide (q ≠ 0)
  | .str s => decide (s ≠ "")
  | .arr _ => true
  | .obj _ => true

/-- JavaScript `a || b`. -/
def jsOr (a b : JSValue) : JSValue := if truthy a then a else b

/-- Property access `o.k` on an object's field list (absent ⇒ `undefined`). -/
def getProp (fields : List (String × JSValue)) (k : String) : JSValue :=
  match fields.lookup k with
  | some v => v
  | none => .undefined

/-- JavaScript `k in o`. -/
def hasKey (fields : List (String × JSValue)) (k : String) : Bool :=
  (fields.lookup k).isSome

/-- Optional chaining `v?.length`. -/
def jsOptLength : JSValue → JSValue
  | .arr l => .num l.length
  | .str s => .num s.length
  | .obj fields => getProp fields "length"
  | _ => .undefined

/-- The normalizer's output shape (`ParsedListResponse` in the source). -/
structure ParsedListResponse where
  items : JSValue
  count : JSValue
  hasNext : Bool
  hasPrevious : Bool
  next : JSValue
  previous : JSValue
  deriving Repr

/-- The fallback value for unexpected formats (lines 63-72). -/
def emptyListResponse : ParsedListResponse :=
  ⟨.arr [], .num 0, false, false, .null, .null⟩

/-- `parseListResponse` (lines 38-73): a direct array is taken as items with
its length as count; an object with a `results` key is read as a paginated
envelope (`items = results || []`, `count = count || results?.length || 0`,
flags from the truthiness of `next`/`previous`); anything else falls back to
the empty response. -/
def parseListResponse : JSValue → ParsedListResponse
  | .arr l => ⟨.arr l, .num l.length, false, false, .null, .null⟩
  | .obj fields =>
    if hasKey fields "results" then
      ⟨jsOr (getProp fields "results") (.arr []),
       jsOr (getProp fields "count") (jsOr (jsOptLength (getProp fields "results")) (.num 0)),
       truthy (getProp fields "next"), truthy (getProp fields "previous"),
       jsOr (getProp fields "next") .null, jsOr (getProp fields "previous") .null⟩
    else emptyListResponse
  | _ => emptyListResponse

/-! ### The session store (`src/auth/auth-manager.ts`)

`authenticate` / `tryAutoAuth` / `logout` are embedded as transitions on an
explicit state; the remote call `new OnlyWorldsClient(...)` followed by
`client.worlds.get()` is a parameter `remote` returning either a thrown
error's message, or the world-or-falsy the call resolved with. -/

structure World where
  id : String
  name : String
  deriving Repr, DecidableEq

/-- The SDK client handle, determined by the credentials it was built from. -/
structure OnlyWorldsClient where
  apiKey : String
  apiPin : String
  deriving Repr, DecidableEq

inductive AuthErrorCode where
  | INVALID_CREDENTIALS
  | NO_WORLD
  | NETWORK_ERROR
  | STORAGE_ERROR
  deriving Repr, DecidableEq

structure AuthError where
  message : String
  code : AuthErrorCode
  deriving Repr, DecidableEq

/-- In-memory session state (`AuthState` in the source, lines 19-24). -/
structure AuthState where
  isAuthenticated : Bool
  client : Option OnlyWorldsClient
  world : Option World
  credentials : Option (String × String)
  deriving Repr, DecidableEq

/-- The manager's full observable state: memory plus the localStorage slot
under `onlyworlds_auth`. -/
structure SysState where
  auth : AuthState
  storage : Option (String × String)
  deriving Repr, DecidableEq

/-- The remote outcome of constructing a client and calling `worlds.get()`. -/
def Remote : Type := String → String → Except String (Option World)

def initialAuthState : AuthState := ⟨false, none, none, none⟩

namespace AuthManager

/-- `clearAuth` (lines 210-217): reset the in-memory state only. -/
def clearAuth (s : SysState) : SysState := { s with auth := initialAuthState }

/-- `clearStorage` (lines 268-274). -/
def clearStorage (s : SysState) : SysState := { s with storage := none }

/-- `saveCredentials` (lines 222-236). -/
def saveCredentials (s : SysState) (apiKey apiPin : String) : SysState :=
  { s with storage := some (apiKey, apiPin) }

/-- `authenticate` (lines 59-110). -/
def authenticate (remote : Remote) (s : SysState) (apiKey apiPin : String) :
    SysState × Except AuthError Bool :=
  if apiKey = "" ∨ apiPin = "" then
    (s, .error ⟨"API key and pin are required", .INVALID_CREDENTIALS⟩)
  else
    match remote apiKey apiPin with
    | .error msg =>
      (clearAuth s, .error ⟨"Authentication failed: " ++ msg, .NETWORK_ERROR⟩)
    | .ok none =>
      (clearAuth s, .error ⟨"No world found. Create a world at onlyworlds.com first", .NO_WORLD⟩)
    | .ok (some world) =>
      let s1 : SysState :=
        { s with auth := ⟨true, some ⟨apiKey, apiPin⟩, some world, some (apiKey, apiPin)⟩ }
      (saveCredentials s1 apiKey apiPin, .ok true)

/-- `tryAutoAuth` (lines 118-133); `loadCredentials` (lines 241-263) yields
nothing when the slot is empty or either stored field is falsy. -/
def tryAutoAuth (remote : Remote) (s : SysState) : SysState × Except AuthError Bool :=
  match s.storage with
  | none => (s, .ok false)
  | some (k, p) =>
    if k = "" ∨ p = "" then (s, .ok false)
    else
      match authenticate remote s k p with
      | (s1, .ok _) => (s1, .ok true)
      | (s1, .error e) => (clearStorage s1, .error e)

/-- `logout` (lines 201-205). -/
def logout (s : SysState) : SysState := clearStorage (clearAuth s)

/-- `isAuthenticated` (lines 171-173). -/
def isAuthenticated (s : SysState) : Bool := s.auth.isAuthenticated

/-- `getClient` (lines 140-146): throws unless a client is present and the
state is authenticated. -/
def getClient (s : SysState) : Except AuthError OnlyWorldsClient :=
  match s.auth.client, s.auth.isAuthenticated with
  | some c, true => .ok c
  | _, _ => .error ⟨"Not authenticated. Call authenticate() first", .INVALID_CREDENTIALS⟩

/-- `getWorld` (lines 153-159). -/
def getWorld (s : SysState) : Except AuthError World :=
  match s.auth.world, s.auth.isAuthenticated with
  | some w, true => .ok w
  | _, _ => .error ⟨"Not authenticated. Call authenticate() first", .INVALID_CREDENTIALS⟩

end AuthManager

/-- The session-store invariant of the spec's data model. -/
def AuthInv (a : AuthState) : Prop :=
  a.isAuthenticated = true ↔ a.client ≠ none ∧ a.world ≠ none

/-- States reachable from a fresh manager (any persisted storage) through
`authenticate`, `tryAutoAuth` and `logout`. -/
inductive Reachable : SysState → Prop where
  | start (st : Option (String × String)) : Reachable ⟨initialAuthState, st⟩
  | stepAuthenticate {s : SysState} (remote : Remote) (k p : String) :
      Reachable s → Reachable (AuthManager.authenticate remote s k p).1
  | stepTryAutoAuth {s : SysState} (remote : Remote) :
      Reachable s → Reachable (AuthManager.tryAutoAuth remote s).1
  | stepLogout {s : SysState} :
      Reachable s → Reachable (AuthManager.logout s)

/-- A remote oracle that accepts any credentials with one world. -/
def remoteOk : Remote := fun _ _ => .ok (some ⟨"w1", "The Buried Giant"⟩)

/-! ### The resource gateway (`src/integration/sdk-manager.ts`) -/

/-- An opaque CRUD resource of the SDK client. -/
structure Resource where
  name : String
  deriving Repr, DecidableEq

/-- The SDK client as a JS object: property lookup by name, `undefined`
(`none`) when the property does not exist. -/
def SDKClient : Type := String → Option Resource

/-- The resource properties of the SDK client, as enumerated by the
convenience getters of `sdk-manager.ts` (lines 98-167). -/
def sdkResourceNames : List String :=
  ["characters", "creatures", "species", "families", "collectives", "institutions",
   "locations", "objects", "constructs", "abilities", "traits", "titles",
   "languages", "laws", "events", "narratives", "phenomena", "relations",
   "maps", "pins", "markers", "zones", "worlds"]

/-- A client exposing exactly the registered resource set. -/
def standardClient : SDKClient :=
  fun propName => if propName ∈ sdkResourceNames then some ⟨propName⟩ else none

namespace SDKManager

/-- `getClient` (lines 34-39): throws when no session exists. -/
def getClient (client : Option SDKClient) : Except String SDKClient :=
  match client with
  | none => .error "Not authenticated. Please connect first."
  | some c => .ok c

/-- `getResource` (lines 52-56): `(client as any)[elementType + "s"]` — a
plain dynamic property pluck on the authenticated client. -/
def getResource (client : Option SDKClient) (elementType : String) :
    Except String (Option Resource) :=
  (getClient client).map (fun c => c (elementType ++ "s"))

end SDKManager

/-! ### Wheel-to-zoom (`src/app.ts` lines 346-351) -/

/-- `e.deltaY > 0 ? -0.1 : 0.1`. -/
def wheelDelta (deltaY : ℚ) : ℚ := if 0 < deltaY then -0.1 else 0.1

/-- `zoom = Math.min(2.5, Math.max(0.3, zoom + delta))`. -/
def wheelZoom (zoom deltaY : ℚ) : ℚ :=
  min 2.5 (max 0.3 (zoom + wheelDelta deltaY))

/-- A whole sequence of wheel events applied in order. -/
def applyWheel (zoom : ℚ) (events : List ℚ) : ℚ := events.foldl wheelZoom zoom

/-! ### Window-level pan listeners (`src/app.ts` lines 324-344)

Each `renderMap` run executes `window.addEventListener('mousemove', …)` and
`window.addEventListener('mouseup', …)` with fresh closures; no
`removeEventListener` for them exists anywhere in the file, and replacing
`main.innerHTML` does not detach window-level listeners. -/

/-- The multiset sizes of installed window-level pan handlers. -/
structure WindowListeners where
  mousemove : ℕ
  mouseup : ℕ
  deriving Repr, DecidableEq

/-- The listener effect of one `renderMap` call (lines 334-344). -/
def renderMapListeners (s : WindowListeners) : WindowListeners :=
  ⟨s.mousemove + 1, s.mouseup + 1⟩

/-- `n` successive map re-renders. -/
def renderMapN : ℕ → WindowListeners → WindowListeners
  | 0, s => s
  | n + 1, s => renderMapN n (renderMapListeners s)

/-! ## Theorems -/

theorem usableWn_cast : ((usableWn : ℕ) : ℚ) = usableW := by
  norm_num [usableWn, usableW, MAP_W, margin]

theorem usableHn_cast : ((usableHn : ℕ) : ℚ) = usableH := by
  norm_num [usableHn, usableH, MAP_H, margin]

/-- Justification for embedding the guard `Math.sqrt(d) < 60` as `d < 3600`. -/
theorem sqrt_lt_sixty_iff (d : ℝ) (hd : 0 ≤ d) : Real.sqrt d < 60 ↔ d < 60 * 60 := by
  rw [show (60 : ℝ) * 60 = 60 ^ 2 by ring]
  rw [← Real.sqrt_lt_sqrt_iff hd, Real.sqrt_sq (by norm_num : (0:ℝ) ≤ 60)]

theorem candX_zero (h : ℕ) : candX h 0 = margin + ((h % usableWn : ℕ) : ℚ) := by
  simp [candX]

theorem candY_zero (h2 : ℕ) : candY h2 0 = margin + ((h2 % usableHn : ℕ) : ℚ) := by
  simp [candY]

theorem nudgeLoop_succ (placed : List PlacedElement) (hx hy fuel attempt : ℕ) (xy : ℚ × ℚ) :
    nudgeLoop placed hx hy (fuel + 1) attempt xy =
      if tooCloseAny placed xy.1 xy.2 then
        nudgeLoop placed hx hy fuel (attempt + 1) (candX hx attempt, candY hy attempt)
      else xy := rfl

/-- The collision scan only looks at the coordinates of the placed points. -/
theorem tooCloseAny_eq_map (placed : List PlacedElement) (x y : ℚ) :
    tooCloseAny placed x y =
      (placed.map coord).any (fun c =>
        decide ((c.1 - x) * (c.1 - x) + (c.2 - y) * (c.2 - y) < 60 * 60)) := by
  induction placed with
  | nil => rfl
  | cons p t ih => simp [tooCloseAny, List.any, coord] at ih ⊢; rw [ih]

theorem tooCloseAny_congr {p1 p2 : List PlacedElement}
    (hc : p1.map coord = p2.map coord) (x y : ℚ) :
    tooCloseAny p1 x y = tooCloseAny p2 x y := by
  rw [tooCloseAny_eq_map, tooCloseAny_eq_map, hc]

theorem nudgeLoop_congr {p1 p2 : List PlacedElement}
    (hc : p1.map coord = p2.map coord) (hx hy : ℕ) :
    ∀ (fuel attempt : ℕ) (xy : ℚ × ℚ),
      nudgeLoop p1 hx hy fuel attempt xy = nudgeLoop p2 hx hy fuel attempt xy := by
  intro fuel
  induction fuel with
  | zero => intro attempt xy; rfl
  | succ n ih =>
    intro attempt xy
    rw [nudgeLoop_succ, nudgeLoop_succ, tooCloseAny_congr hc]
    split
    · exact ih _ _
    · rfl

theorem satPlace_congr {p1 p2 : List PlacedElement} {e1 e2 : WorldElement}
    (hc : p1.map coord = p2.map coord) (he : proj e1 = proj e2) :
    (satPlace p1 e1).map coord = (satPlace p2 e2).map coord := by
  obtain ⟨hid, hname, htype⟩ : e1.id = e2.id ∧ e1.name = e2.name ∧ e1.type = e2.type := by
    simpa [proj, Prod.ext_iff] using he
  unfold satPlace
  simp only [List.map_append, List.map_cons, List.map_nil, coord, hc, hid, hname, htype,
    nudgeLoop_congr hc]

theorem foldl_satPlace_congr :
    ∀ {l1 l2 : List WorldElement}, l1.map proj = l2.map proj →
    ∀ {b1 b2 : List PlacedElement}, b1.map coord = b2.map coord →
      (l1.foldl satPlace b1).map coord = (l2.foldl satPlace b2).map coord := by
  intro l1
  induction l1 with
  | nil =>
    intro l2 hl b1 b2 hb
    have : l2 = [] := by
      cases l2 with
      | nil => rfl
      | cons a t => simp at hl
    subst this; simpa using hb
  | cons a t ih =>
    intro l2 hl b1 b2 hb
    cases l2 with
    | nil => simp at hl
    | cons a2 t2 =>
      simp only [List.map_cons, List.cons.injEq] at hl
      simp only [List.foldl_cons]
      exact ih hl.2 (satPlace_congr hb hl.1)

theorem map_filter_factor {α β : Type} (f : α → β) (q : β → Bool) :
    ∀ l : List α, (l.filter (fun a => q (f a))).map f = (l.map f).filter q := by
  intro l
  induction l with
  | nil => rfl
  | cons a t ih =>
    by_cases hq : q (f a)
    · simp [List.filter, hq, ih]
    · simp [List.filter, hq, ih]

theorem placeAnchors_coord (M : JSMath) (l : List WorldElement) :
    (placeAnchors M l).map coord = (List.range l.length).map (anchorCoord M l.length) := by
  unfold placeAnchors
  rw [List.map_map]
  have : (coord ∘ fun ie : ℕ × WorldElement =>
      (⟨ie.2,
        margin + usableW / 2 +
          M.cos ((ie.1 : ℚ) * goldenAngle M)
            * (0.2 + ((ie.1 : ℚ) / max ((l.length : ℕ) : ℚ) 1) * 0.3) * usableW / 2,
        margin + usableH / 2 +
          M.sin ((ie.1 : ℚ) * goldenAngle M)
            * (0.2 + ((ie.1 : ℚ) / max ((l.length : ℕ) : ℚ) 1) * 0.3) * usableH / 2⟩
        : PlacedElement)) = (anchorCoord M l.length ∘ Prod.fst) := rfl
  rw [this, ← List.map_map, List.enum_map_fst]

/-- Claim C1. Layout determinism / purity: the assigned coordinates are a function
of the ids, names, types and their ordering alone — two runs on inputs that
agree on those (the second may differ in any payload field) produce identical
coordinate lists, so re-running on an unchanged data set reproduces identical
coordinates; there is no clock and no randomness in the embedding, which is a
pure function. -/
theorem placeElements_deterministic (M : JSMath) (es1 es2 : List WorldElement)
    (h : es1.map proj = es2.map proj) :
    (placeElements M es1).map coord = (placeElements M es2).map coord := by
  unfold placeElements
  have hloc : (es1.filter (fun e => e.type == "location")).map proj =
      (es2.filter (fun e => e.type == "location")).map proj := by
    have h1 := map_filter_factor proj (fun t => t.2.2 == "location") es1
    have h2 := map_filter_factor proj (fun t => t.2.2 == "location") es2
    calc (es1.filter (fun e => e.type == "location")).map proj
        = (es1.map proj).filter (fun t => t.2.2 == "location") := h1
      _ = (es2.map proj).filter (fun t => t.2.2 == "location") := by rw [h]
      _ = (es2.filter (fun e => e.type == "location")).map proj := h2.symm
  have hoth : (es1.filter (fun e => e.type != "location")).map proj =
      (es2.filter (fun e => e.type != "location")).map proj := by
    have h1 := map_filter_factor proj (fun t => t.2.2 != "location") es1
    have h2 := map_filter_factor proj (fun t => t.2.2 != "location") es2
    calc (es1.filter (fun e => e.type != "location")).map proj
        = (es1.map proj).filter (fun t => t.2.2 != "location") := h1
      _ = (es2.map proj).filter (fun t => t.2.2 != "location") := by rw [h]
      _ = (es2.filter (fun e => e.type != "location")).map proj := h2.symm
  refine foldl_satPlace_congr hoth ?_
  rw [placeAnchors_coord, placeAnchors_coord]
  have hlen : (es1.filter (fun e => e.type == "location")).length =
      (es2.filter (fun e => e.type == "location")).length := by
    have := congrArg List.length hloc
    simpa using this
  rw [hlen]

/-- Witness for C1: two concrete lists agreeing on id/name/type (one has an
extra description payload) get identical coordinates. -/
theorem placeElements_deterministic_witness :
    (placeElements ⟨0, fun _ => 0, fun _ => 0⟩
        [⟨"id1", "axl", some "an old man", "character"⟩,
         ⟨"id2", "great plain", none, "location"⟩]).map coord =
      (placeElements ⟨0, fun _ => 0, fun _ => 0⟩
        [⟨"id1", "axl", none, "character"⟩,
         ⟨"id2", "great plain", some "a plain", "location"⟩]).map coord :=
  placeElements_deterministic _ _ _ (by decide)

/-- Placing a single non-anchor element: no anchors, no collisions, so the
coordinate is exactly the initial hash candidate. -/
theorem placeElements_singleton (M : JSMath) (e : WorldElement) (h : e.type ≠ "location") :
    placeElements M [e] =
      [⟨e, margin + ((hashString (e.id ++ e.name) % usableWn : ℕ) : ℚ),
          margin + ((hashString (e.name ++ e.type) % usableHn : ℕ) : ℚ)⟩] := by
  have hb : (e.type == "location") = false := by simp [h]
  simp [placeElements, satPlace, placeAnchors, nudgeLoop, tooCloseAny, hb,
    List.filter, List.enum, bne]

/-- Claim C2, counterexample. Two non-anchor elements with the same id and the
same name but different types receive different coordinates (the y-seed is
`hashString(name + type)`), refuting "a satellite's position is a pure
function of its id and name alone". -/
theorem satellite_not_pure_in_id_name :
    ((⟨"", "a", none, "b"⟩ : WorldElement).id = (⟨"", "a", none, "c"⟩ : WorldElement).id ∧
     (⟨"", "a", none, "b"⟩ : WorldElement).name = (⟨"", "a", none, "c"⟩ : WorldElement).name ∧
     (⟨"", "a", none, "b"⟩ : WorldElement).type ≠ "location" ∧
     (⟨"", "a", none, "c"⟩ : WorldElement).type ≠ "location") ∧
    (placeElements ⟨0, fun _ => 0, fun _ => 0⟩ [⟨"", "a", none, "b"⟩]).map coord ≠
      (placeElements ⟨0, fun _ => 0, fun _ => 0⟩ [⟨"", "a", none, "c"⟩]).map coord := by
  refine ⟨⟨rfl, rfl, by decide, by decide⟩, ?_⟩
  rw [placeElements_singleton _ _ (by decide), placeElements_singleton _ _ (by decide)]
  simp only [coord, List.map_cons, List.map_nil]
  intro hx
  have hx2 := (Prod.mk.injEq _ _ _ _).mp (List.cons_eq_cons.mp hx).1
  have h2 : hashString ("a" ++ "b") % usableHn = 968 := by decide
  have h3 : hashString ("a" ++ "c") % usableHn = 969 := by decide
  rw [h2, h3] at hx2
  norm_num at hx2

/-- Claim C2, amended. A satellite's coordinate is a pure function of its id,
name and type together with the already-placed points: in particular, two
non-anchor elements agreeing on id, name and type that are each placed as the
sole element of their set (so against identical prior placements) receive the
same coordinate, whatever their other fields and whatever the math library. -/
theorem satellite_pure_in_id_name_type (M M' : JSMath) (e1 e2 : WorldElement)
    (hid : e1.id = e2.id) (hname : e1.name = e2.name) (htype : e1.type = e2.type)
    (hloc : e1.type ≠ "location") :
    (placeElements M [e1]).map coord = (placeElements M' [e2]).map coord := by
  rw [placeElements_singleton M e1 hloc, placeElements_singleton M' e2 (htype ▸ hloc)]
  simp [coord, hid, hname, htype]

/-- Witness for the amended C2 at concrete elements differing only in their
description payload and in the ambient math library. -/
theorem satellite_pure_in_id_name_type_witness :
    (placeElements ⟨0, fun _ => 0, fun _ => 0⟩
        [⟨"id9", "wistan", some "a warrior", "character"⟩]).map coord =
      (placeElements ⟨1, fun _ => 1, fun _ => 1⟩
        [⟨"id9", "wistan", none, "character"⟩]).map coord :=
  satellite_pure_in_id_name_type _ _ _ _ rfl rfl rfl (by decide)

/-- The nudge loop returns one of the five candidates. -/
theorem nudgeLoop_result (placed : List PlacedElement) (hx hy : ℕ) :
    (∃ k, k ≤ 4 ∧ nudgeLoop placed hx hy 5 0 (candX hx 0, candY hy 0) = (candX hx k, candY hy k)) ∧
    ((∀ k, k ≤ 4 → tooCloseAny placed (candX hx k) (candY hy k) = true) →
      nudgeLoop placed hx hy 5 0 (candX hx 0, candY hy 0) = (candX hx 4, candY hy 4)) := by
  have e5 : nudgeLoop placed hx hy 5 0 (candX hx 0, candY hy 0) =
      if tooCloseAny placed (candX hx 0) (candY hy 0) then
        nudgeLoop placed hx hy 4 1 (candX hx 0, candY hy 0)
      else (candX hx 0, candY hy 0) := rfl
  have e4 : nudgeLoop placed hx hy 4 1 (candX hx 0, candY hy 0) =
      if tooCloseAny placed (candX hx 0) (candY hy 0) then
        nudgeLoop placed hx hy 3 2 (candX hx 1, candY hy 1)
      else (candX hx 0, candY hy 0) := rfl
  have e3 : nudgeLoop placed hx hy 3 2 (candX hx 1, candY hy 1) =
      if tooCloseAny placed (candX hx 1) (candY hy 1) then
        nudgeLoop placed hx hy 2 3 (candX hx 2, candY hy 2)
      else (candX hx 1, candY hy 1) := rfl
  have e2 : nudgeLoop placed hx hy 2 3 (candX hx 2, candY hy 2) =
      if tooCloseAny placed (candX hx 2) (candY hy 2) then
        nudgeLoop placed hx hy 1 4 (candX hx 3, candY hy 3)
      else (candX hx 2, candY hy 2) := rfl
  have e1 : nudgeLoop placed hx hy 1 4 (candX hx 3, candY hy 3) =
      if tooCloseAny placed (candX hx 3) (candY hy 3) then
        nudgeLoop placed hx hy 0 5 (candX hx 4, candY hy 4)
      else (candX hx 3, candY hy 3) := rfl
  have e0 : nudgeLoop placed hx hy 0 5 (candX hx 4, candY hy 4) =
      (candX hx 4, candY hy 4) := rfl
  constructor
  · by_cases h0 : tooCloseAny placed (candX hx 0) (candY hy 0)
    · by_cases h1 : tooCloseAny placed (candX hx 1) (candY hy 1)
      · by_cases h2 : tooCloseAny placed (candX hx 2) (candY hy 2)
        · by_cases h3 : tooCloseAny placed (candX hx 3) (candY hy 3)
          · exact ⟨4, by norm_num,
              by rw [e5, if_pos h0, e4, if_pos h0, e3, if_pos h1, e2, if_pos h2,
                     e1, if_pos h3, e0]⟩
          · exact ⟨3, by norm_num,
              by rw [e5, if_pos h0, e4, if_pos h0, e3, if_pos h1, e2, if_pos h2,
                     e1, if_neg h3]⟩
        · exact ⟨2, by norm_num,
            by rw [e5, if_pos h0, e4, if_pos h0, e3, if_pos h1, e2, if_neg h2]⟩
      · exact ⟨1, by norm_num,
          by rw [e5, if_pos h0, e4, if_pos h0, e3, if_neg h1]⟩
    · exact ⟨0, by norm_num, by rw [e5, if_neg h0]⟩
  · intro hall
    rw [e5, if_pos (hall 0 (by norm_num)), e4, if_pos (hall 0 (by norm_num)),
        e3, if_pos (hall 1 (by norm_num)), e2, if_pos (hall 2 (by norm_num)),
        e1, if_pos (hall 3 (by norm_num)), e0]

/-- Unfolding `satPlace`: the appended coordinate is the nudge-loop output
started at the 0th candidate. -/
theorem satPlace_eq (placed : List PlacedElement) (e : WorldElement) :
    satPlace placed e =
      placed ++ [⟨e,
        (nudgeLoop placed (hashString (e.id ++ e.name)) (hashString (e.name ++ e.type)) 5 0
          (candX (hashString (e.id ++ e.name)) 0, candY (hashString (e.name ++ e.type)) 0)).1,
        (nudgeLoop placed (hashString (e.id ++ e.name)) (hashString (e.name ++ e.type)) 5 0
          (candX (hashString (e.id ++ e.name)) 0, candY (hashString (e.name ++ e.type)) 0)).2⟩] := rfl

/-- Claim C7. The collision-avoidance loop performs at most 5 attempts: the
placed satellite's coordinate is the k-th candidate for some k at most 4, the
k-th candidate perturbing the x-seed by k*197 and the y-seed by k*131 (see
`candX`, `candY`); and when every candidate collides (lies within the 60-unit
threshold of an already-placed point, `tooCloseAny`), the attempt bound is
exhausted and the last candidate (k = 4) is accepted anyway. -/
theorem satPlace_attempts (placed : List PlacedElement) (e : WorldElement) :
    (∃ k, k ≤ 4 ∧ satPlace placed e = placed ++
        [⟨e, candX (hashString (e.id ++ e.name)) k, candY (hashString (e.name ++ e.type)) k⟩]) ∧
    ((∀ k, k ≤ 4 → tooCloseAny placed (candX (hashString (e.id ++ e.name)) k)
        (candY (hashString (e.name ++ e.type)) k) = true) →
      satPlace placed e = placed ++
        [⟨e, candX (hashString (e.id ++ e.name)) 4, candY (hashString (e.name ++ e.type)) 4⟩]) := by
  obtain ⟨⟨k, hk, hres⟩, hforce⟩ :=
    nudgeLoop_result placed (hashString (e.id ++ e.name)) (hashString (e.name ++ e.type))
  constructor
  · exact ⟨k, hk, by rw [satPlace_eq, hres]⟩
  · intro hall
    rw [satPlace_eq, hforce hall]

/-- Witness for C7: concrete already-placed points covering all five
candidates of the empty-string seeds force the loop to exhaust its attempts
and accept the still-colliding last candidate. -/
theorem satPlace_attempts_witness :
    (∀ k, k ≤ 4 → tooCloseAny crowdedPlaced
        (candX (hashString (dummyElement.id ++ dummyElement.name)) k)
        (candY (hashString (dummyElement.name ++ dummyElement.type)) k) = true) ∧
    satPlace crowdedPlaced dummyElement =
      crowdedPlaced ++ [⟨dummyElement,
        candX (hashString (dummyElement.id ++ dummyElement.name)) 4,
        candY (hashString (dummyElement.name ++ dummyElement.type)) 4⟩] := by
  have hh : hashString (dummyElement.id ++ dummyElement.name) = 5381 := by decide
  have hh2 : hashString (dummyElement.name ++ dummyElement.type) = 5381 := by decide
  have hall : ∀ k, k ≤ 4 → tooCloseAny crowdedPlaced
      (candX (hashString (dummyElement.id ++ dummyElement.name)) k)
      (candY (hashString (dummyElement.name ++ dummyElement.type)) k) = true := by
    intro k hk
    rw [hh, hh2]
    interval_cases k <;>
      · simp [tooCloseAny, candX, candY, margin, usableWn, usableHn, crowdedPlaced, dummyElement]
        norm_num
  exact ⟨hall, (satPlace_attempts crowdedPlaced dummyElement).2 hall⟩

/-- Every x-candidate lies in the margin-inset band. -/
theorem candX_bounds (h k : ℕ) : margin ≤ candX h k ∧ candX h k < MAP_W - margin := by
  unfold candX
  constructor
  · have h0 : (0:ℚ) ≤ (((h + k * 197) % usableWn : ℕ) : ℚ) := Nat.cast_nonneg _
    linarith
  · have hlt : ((h + k * 197) % usableWn) < usableWn := Nat.mod_lt _ (by norm_num [usableWn])
    have hq : (((h + k * 197) % usableWn : ℕ) : ℚ) < ((usableWn : ℕ) : ℚ) := by exact_mod_cast hlt
    have := usableWn_cast
    rw [this] at hq
    simp only [usableW, MAP_W, margin] at hq ⊢
    linarith

/-- Every y-candidate lies in the margin-inset band. -/
theorem candY_bounds (h2 k : ℕ) : margin ≤ candY h2 k ∧ candY h2 k < MAP_H - margin := by
  unfold candY
  constructor
  · have h0 : (0:ℚ) ≤ (((h2 + k * 131) % usableHn : ℕ) : ℚ) := Nat.cast_nonneg _
    linarith
  · have hlt : ((h2 + k * 131) % usableHn) < usableHn := Nat.mod_lt _ (by norm_num [usableHn])
    have hq : (((h2 + k * 131) % usableHn : ℕ) : ℚ) < ((usableHn : ℕ) : ℚ) := by exact_mod_cast hlt
    have := usableHn_cast
    rw [this] at hq
    simp only [usableH, MAP_H, margin] at hq ⊢
    linarith

/-- Anchor coordinates stay strictly inside the inset region: the radius
factor is below 0.5 and the trig factors are bounded by 1. -/
theorem anchorCoord_bounds (M : JSMath) (hcos : ∀ θ, |M.cos θ| ≤ 1) (hsin : ∀ θ, |M.sin θ| ≤ 1)
    (n i : ℕ) (hi : i < n) :
    margin ≤ (anchorCoord M n i).1 ∧ (anchorCoord M n i).1 < MAP_W - margin ∧
    margin ≤ (anchorCoord M n i).2 ∧ (anchorCoord M n i).2 < MAP_H - margin := by
  have hn : (1:ℚ) ≤ (n : ℚ) := by exact_mod_cast Nat.one_le_iff_ne_zero.mpr (by omega)
  have hmax : max ((n:ℕ):ℚ) 1 = ((n:ℕ):ℚ) := max_eq_left hn
  have hfrac0 : (0:ℚ) ≤ (i:ℚ) / (n:ℚ) := by positivity
  have hfrac1 : (i:ℚ) / (n:ℚ) < 1 := by
    rw [div_lt_one (by linarith)]
    exact_mod_cast hi
  have hc := abs_le.mp (hcos ((i:ℚ) * goldenAngle M))
  have hs := abs_le.mp (hsin ((i:ℚ) * goldenAngle M))
  simp only [anchorCoord, hmax]
  set c := M.cos ((i:ℚ) * goldenAngle M) with hcdef
  set s := M.sin ((i:ℚ) * goldenAngle M) with hsdef
  set f := (i:ℚ) / (n:ℚ) with hfdef
  have hr0 : (0:ℚ) ≤ 0.2 + f * 0.3 := by nlinarith
  have hr1 : (0.2 + f * 0.3 : ℚ) < 1/2 := by nlinarith
  have hx1 : c * (0.2 + f * 0.3) ≤ (0.2 + f * 0.3) := by nlinarith [hc.1, hc.2]
  have hx2 : -(0.2 + f * 0.3) ≤ c * (0.2 + f * 0.3) := by nlinarith [hc.1, hc.2]
  have hy1 : s * (0.2 + f * 0.3) ≤ (0.2 + f * 0.3) := by nlinarith [hs.1, hs.2]
  have hy2 : -(0.2 + f * 0.3) ≤ s * (0.2 + f * 0.3) := by nlinarith [hs.1, hs.2]
  simp only [usableW, usableH, MAP_W, MAP_H, margin]
  norm_num
  refine ⟨by nlinarith, by nlinarith, by nlinarith, by nlinarith⟩

theorem placeAnchors_inCanvas (M : JSMath) (hcos : ∀ θ, |M.cos θ| ≤ 1)
    (hsin : ∀ θ, |M.sin θ| ≤ 1) (l : List WorldElement) :
    ∀ p ∈ placeAnchors M l, inCanvas p := by
  intro p hp
  unfold placeAnchors at hp
  rw [List.mem_map] at hp
  obtain ⟨⟨i, el⟩, hie, rfl⟩ := hp
  have hi : i < l.length := by
    have := List.mk_mem_enum_iff_getElem?.mp hie
    exact (List.getElem?_eq_some.mp this).1
  have hb := anchorCoord_bounds M hcos hsin l.length i hi
  exact ⟨hb.1, hb.2.1, hb.2.2.1, hb.2.2.2⟩

theorem satPlace_inCanvas (placed : List PlacedElement) (e : WorldElement)
    (hplaced : ∀ p ∈ placed, inCanvas p) :
    ∀ p ∈ satPlace placed e, inCanvas p := by
  obtain ⟨⟨k, hk, hres⟩, _⟩ := satPlace_attempts placed e
  rw [hres]
  intro p hp
  rw [List.mem_append] at hp
  rcases hp with hp | hp
  · exact hplaced p hp
  · rw [List.mem_singleton] at hp
    subst hp
    exact ⟨(candX_bounds _ _).1, (candX_bounds _ _).2, (candY_bounds _ _).1, (candY_bounds _ _).2⟩

theorem foldl_satPlace_inCanvas :
    ∀ (l : List WorldElement) (b : List PlacedElement), (∀ p ∈ b, inCanvas p) →
      ∀ p ∈ l.foldl satPlace b, inCanvas p := by
  intro l
  induction l with
  | nil => exact fun b hb => hb
  | cons a t ih =>
    intro b hb
    simp only [List.foldl_cons]
    exact ih _ (satPlace_inCanvas b a hb)

theorem satPlace_length (placed : List PlacedElement) (e : WorldElement) :
    (satPlace placed e).length = placed.length + 1 := by
  simp [satPlace]

theorem foldl_satPlace_length :
    ∀ (l : List WorldElement) (b : List PlacedElement),
      (l.foldl satPlace b).length = b.length + l.length := by
  intro l
  induction l with
  | nil => intro b; simp
  | cons a t ih =>
    intro b
    simp only [List.foldl_cons, List.length_cons]
    rw [ih, satPlace_length]
    omega

theorem placeAnchors_length (M : JSMath) (l : List WorldElement) :
    (placeAnchors M l).length = l.length := by
  simp [placeAnchors]

theorem filter_partition_length (es : List WorldElement) :
    (es.filter (fun e => e.type == "location")).length +
      (es.filter (fun e => e.type != "location")).length = es.length := by
  induction es with
  | nil => rfl
  | cons a t ih =>
    simp only [bne] at ih ⊢
    by_cases ha : a.type == "location"
    · simp [List.filter_cons, ha]; omega
    · simp [List.filter_cons, ha]; omega

/-- Claim C10. The layout returns exactly one placed element per input
element, and every produced coordinate lies inside the margin-inset region of
the fixed canvas (for anchors the radius factor never reaches 0.5), provided
the ambient cosine and sine are bounded by 1 in absolute value. -/
theorem placeElements_in_canvas (M : JSMath) (hcos : ∀ θ, |M.cos θ| ≤ 1)
    (hsin : ∀ θ, |M.sin θ| ≤ 1) (es : List WorldElement) :
    (placeElements M es).length = es.length ∧ ∀ p ∈ placeElements M es, inCanvas p := by
  unfold placeElements
  constructor
  · rw [foldl_satPlace_length, placeAnchors_length]
    have := filter_partition_length es
    omega
  · exact foldl_satPlace_inCanvas _ _ (placeAnchors_inCanvas M hcos hsin _)

/-- Witness for C10 at a concrete two-element input. -/
theorem placeElements_in_canvas_witness :
    (placeElements ⟨3, fun _ => 1, fun _ => 0⟩
        [⟨"id1", "axl", none, "character"⟩, ⟨"id2", "great plain", none, "location"⟩]).length = 2 ∧
    ∀ p ∈ placeElements ⟨3, fun _ => 1, fun _ => 0⟩
        [⟨"id1", "axl", none, "character"⟩, ⟨"id2", "great plain", none, "location"⟩], inCanvas p := by
  have h := placeElements_in_canvas ⟨3, fun _ => 1, fun _ => 0⟩
      (fun θ => by norm_num) (fun θ => by norm_num)
      [⟨"id1", "axl", none, "character"⟩, ⟨"id2", "great plain", none, "location"⟩]
  simpa using h

/-- Claim C8. Wheel-to-zoom: each tick adds plus or minus 0.1 according to
scroll direction and clamps into [0.3, 2.5]; starting from any zoom inside
[0.3, 2.5], any sequence of wheel events of any magnitudes leaves the zoom
inside [0.3, 2.5]. -/
theorem zoom_clamped (z0 : ℚ) (events : List ℚ) (hlo : 0.3 ≤ z0) (hhi : z0 ≤ 2.5) :
    (0.3 ≤ applyWheel z0 events ∧ applyWheel z0 events ≤ 2.5) ∧
    (∀ z d, wheelZoom z d = min 2.5 (max 0.3 (z + (if 0 < d then -0.1 else 0.1)))) := by
  constructor
  · induction events generalizing z0 with
    | nil => exact ⟨hlo, hhi⟩
    | cons d t ih =>
      simp only [applyWheel, List.foldl_cons] at ih ⊢
      exact ih (wheelZoom z0 d) (le_min (by norm_num) (le_max_left _ _)) (min_le_left _ _)
  · intro z d; rfl

/-- Witness for C8 at zoom 1 and a concrete event sequence. -/
theorem zoom_clamped_witness :
    ((0.3:ℚ) ≤ 1 ∧ (1:ℚ) ≤ 2.5) ∧
    ((0.3 ≤ applyWheel 1 [5, -3, 0, 7] ∧ applyWheel 1 [5, -3, 0, 7] ≤ 2.5) ∧
     (∀ z d, wheelZoom z d = min 2.5 (max 0.3 (z + (if 0 < d then -0.1 else 0.1))))) :=
  ⟨⟨by norm_num, by norm_num⟩, zoom_clamped 1 [5, -3, 0, 7] (by norm_num) (by norm_num)⟩

/-- Claim C9 (refuted; code bug). Each `renderMap` call installs one more
window-level mousemove and one more mouseup handler and none are ever
removed, so after n re-renders the listener counts have grown by exactly n:
re-rendering does accumulate duplicate listeners, contrary to the spec. -/
theorem renderMap_listener_growth :
    ∀ (n : ℕ) (s : WindowListeners),
      (renderMapN n s).mousemove = s.mousemove + n ∧
      (renderMapN n s).mouseup = s.mouseup + n := by
  intro n
  induction n with
  | zero => intro s; simp [renderMapN]
  | succ m ih =>
    intro s
    have h := ih (renderMapListeners s)
    simp only [renderMapN, renderMapListeners] at h ⊢
    omega

/-- Claim C3, counterexample. The normalizer has no single-property fallback
rule: an object whose only property holds a sequence under a key other than
`results` yields empty items, not that sequence; moreover `count` uses `||`
(so a present `count: 0` is overridden by the results length) and `hasNext`
uses truthiness, not presence (a present empty-string `next` gives false). -/
theorem parseListResponse_counterexample :
    (parseListResponse (.obj [("foo", .arr [.num 1, .num 2, .num 3])])).items ≠
      .arr [.num 1, .num 2, .num 3] ∧
    (parseListResponse (.obj [("foo", .arr [.num 1, .num 2, .num 3])])).items = .arr [] ∧
    (parseListResponse (.obj [("results", .arr [.num 7]), ("count", .num 0)])).count ≠ .num 0 ∧
    (parseListResponse (.obj [("results", .arr [.num 7]), ("count", .num 0)])).count = .num 1 ∧
    (parseListResponse (.obj [("results", .arr [.num 7]), ("next", .str "")])).hasNext = false := by
  have h1 : (parseListResponse (.obj [("foo", .arr [.num 1, .num 2, .num 3])])).items =
      .arr [] := rfl
  have h2 : (parseListResponse (.obj [("results", .arr [.num 7]), ("count", .num 0)])).count =
      .num 1 := rfl
  refine ⟨?_, h1, ?_, h2, rfl⟩
  · rw [h1]; simp
  · rw [h2]; simp

/-- Claim C3, amended. The list-response normalizer applies a three-rule
decision table in order with first match winning: a bare sequence yields
items = the sequence and count = its length with no pagination; an object
with a `results` key yields items = results if truthy else empty,
count = the first truthy of raw.count, results?.length, 0, and pagination
flags from the truthiness of next/previous; anything else (including an
object whose only property holds a sequence under another key) yields
items = [] and count = 0 — and the function is total by construction. -/
theorem parseListResponse_rules (raw : JSValue) :
    (∀ l, raw = .arr l →
      parseListResponse raw = ⟨.arr l, .num l.length, false, false, .null, .null⟩) ∧
    (∀ fields, raw = .obj fields → hasKey fields "results" = true →
      parseListResponse raw =
        ⟨jsOr (getProp fields "results") (.arr []),
         jsOr (getProp fields "count") (jsOr (jsOptLength (getProp fields "results")) (.num 0)),
         truthy (getProp fields "next"), truthy (getProp fields "previous"),
         jsOr (getProp fields "next") .null, jsOr (getProp fields "previous") .null⟩) ∧
    (∀ fields, raw = .obj fields → hasKey fields "results" = false →
      parseListResponse raw = emptyListResponse) ∧
    ((∀ l, raw ≠ .arr l) → (∀ fields, raw ≠ .obj fields) →
      parseListResponse raw = emptyListResponse) := by
  refine ⟨?_, ?_, ?_, ?_⟩
  · intro l h; subst h; rfl
  · intro fields h hk; subst h; simp [parseListResponse, hk]
  · intro fields h hk; subst h; simp [parseListResponse, hk]
  · intro ha ho
    cases raw with
    | arr l => exact absurd rfl (ha l)
    | obj fields => exact absurd rfl (ho fields)
    | null => rfl
    | undefined => rfl
    | bool b => rfl
    | num q => rfl
    | str s => rfl

/-- Witness for C3 on a concrete paginated envelope. -/
theorem parseListResponse_rules_witness :
    parseListResponse (.obj [("results", .arr [.num 1]), ("count", .num 1), ("next", .str "x")]) =
      ⟨.arr [.num 1], .num 1, true, false, .str "x", .null⟩ := by
  have h := (parseListResponse_rules
      (.obj [("results", .arr [.num 1]), ("count", .num 1), ("next", .str "x")])).2.1
      [("results", .arr [.num 1]), ("count", .num 1), ("next", .str "x")] rfl rfl
  rw [h]
  rfl

/-- Claim C4, amended. `authenticate` fails with an INVALID_CREDENTIALS
error when either argument is empty, leaving the state unchanged (not
cleared); with a NO_WORLD error when the remote returns no world; with a
NETWORK_ERROR wrapping any other failure's message; after a successful call
`isAuthenticated` is true and `getWorld` / `getClient` succeed; after a
failed call with non-empty arguments `isAuthenticated` is false. -/
theorem authenticate_spec (remote : Remote) (s : SysState) (k p : String) :
    (k = "" ∨ p = "" →
      (AuthManager.authenticate remote s k p).1 = s ∧
      (AuthManager.authenticate remote s k p).2 =
        .error ⟨"API key and pin are required", .INVALID_CREDENTIALS⟩) ∧
    (k ≠ "" → p ≠ "" → remote k p = .ok none →
      (AuthManager.authenticate remote s k p).2 =
        .error ⟨"No world found. Create a world at onlyworlds.com first", .NO_WORLD⟩ ∧
      AuthManager.isAuthenticated (AuthManager.authenticate remote s k p).1 = false) ∧
    (∀ msg, k ≠ "" → p ≠ "" → remote k p = .error msg →
      (AuthManager.authenticate remote s k p).2 =
        .error ⟨"Authentication failed: " ++ msg, .NETWORK_ERROR⟩ ∧
      AuthManager.isAuthenticated (AuthManager.authenticate remote s k p).1 = false) ∧
    (∀ w, k ≠ "" → p ≠ "" → remote k p = .ok (some w) →
      (AuthManager.authenticate remote s k p).2 = .ok true ∧
      AuthManager.isAuthenticated (AuthManager.authenticate remote s k p).1 = true ∧
      AuthManager.getClient (AuthManager.authenticate remote s k p).1 = .ok ⟨k, p⟩ ∧
      AuthManager.getWorld (AuthManager.authenticate remote s k p).1 = .ok w) := by
  refine ⟨?_, ?_, ?_, ?_⟩
  · rintro (h | h) <;> simp [AuthManager.authenticate, h]
  · intro hk hp hr
    simp [AuthManager.authenticate, hk, hp, hr, AuthManager.clearAuth,
      AuthManager.isAuthenticated, initialAuthState]
  · intro msg hk hp hr
    simp [AuthManager.authenticate, hk, hp, hr, AuthManager.clearAuth,
      AuthManager.isAuthenticated, initialAuthState]
  · intro w hk hp hr
    simp [AuthManager.authenticate, hk, hp, hr, AuthManager.saveCredentials,
      AuthManager.isAuthenticated, AuthManager.getClient, AuthManager.getWorld]

/-- Claim C4, counterexample. From an authenticated state, a failed call
with an empty key throws INVALID_CREDENTIALS but leaves
`isAuthenticated() == true`, refuting "after any failed call
isAuthenticated()==false": the empty-argument check precedes the try block
whose catch is what clears the state. -/
theorem authenticate_failed_but_still_authenticated :
    (AuthManager.authenticate remoteOk
        ((AuthManager.authenticate remoteOk ⟨initialAuthState, none⟩ "k" "p").1) "" "p").2 =
      .error ⟨"API key and pin are required", .INVALID_CREDENTIALS⟩ ∧
    AuthManager.isAuthenticated
      (AuthManager.authenticate remoteOk
        ((AuthManager.authenticate remoteOk ⟨initialAuthState, none⟩ "k" "p").1) "" "p").1 =
      true := by
  exact ⟨rfl, rfl⟩

/-- Witness for C4: a successful authentication at concrete inputs. -/
theorem authenticate_spec_witness :
    (AuthManager.authenticate remoteOk ⟨initialAuthState, none⟩ "k" "p").2 = .ok true ∧
    AuthManager.isAuthenticated
      (AuthManager.authenticate remoteOk ⟨initialAuthState, none⟩ "k" "p").1 = true ∧
    AuthManager.getClient (AuthManager.authenticate remoteOk ⟨initialAuthState, none⟩ "k" "p").1 =
      .ok ⟨"k", "p"⟩ ∧
    AuthManager.getWorld (AuthManager.authenticate remoteOk ⟨initialAuthState, none⟩ "k" "p").1 =
      .ok ⟨"w1", "The Buried Giant"⟩ :=
  (authenticate_spec remoteOk ⟨initialAuthState, none⟩ "k" "p").2.2.2 ⟨"w1", "The Buried Giant"⟩
    (by decide) (by decide) rfl

/-- Claim C5, amended. The resource gateway fails with the
not-authenticated error when invoked before a session exists; once a session
exists it performs a plain property pluck `client[type + "s"]`, so a type
name outside the registered set yields an undefined resource (`none`) inside
a successful result — it does not fail with an UnknownResource error. -/
theorem getResource_spec (client : Option SDKClient) (t : String) :
    (client = none →
      SDKManager.getResource client t = .error "Not authenticated. Please connect first.") ∧
    (∀ c, client = some c → SDKManager.getResource client t = .ok (c (t ++ "s"))) ∧
    ((t ++ "s") ∉ sdkResourceNames →
      SDKManager.getResource (some standardClient) t = .ok none) := by
  refine ⟨?_, ?_, ?_⟩
  · intro h; subst h; rfl
  · intro c h; subst h; rfl
  · intro h
    simp [SDKManager.getResource, SDKManager.getClient, standardClient, h, Except.map]

/-- Claim C5, counterexample. With an authenticated client exposing exactly
the registered resource set, asking for the unregistered type "dragon"
returns `ok none` (an undefined resource), not an UnknownResource-class
error. -/
theorem getResource_unknown_returns_undefined :
    SDKManager.getResource (some standardClient) "dragon" = .ok none ∧
    "dragons" ∉ sdkResourceNames ∧
    SDKManager.getResource none "dragon" =
      .error "Not authenticated. Please connect first." := by
  refine ⟨rfl, by decide, rfl⟩

/-- Witness for C5 covering both the unauthenticated failure and the
authenticated lookups. -/
theorem getResource_spec_witness :
    SDKManager.getResource none "character" =
      .error "Not authenticated. Please connect first." ∧
    SDKManager.getResource (some standardClient) "character" =
      .ok (standardClient "characters") ∧
    SDKManager.getResource (some standardClient) "dragon" = .ok none :=
  ⟨(getResource_spec none "character").1 rfl,
   (getResource_spec (some standardClient) "character").2.1 standardClient rfl,
   (getResource_spec (some standardClient) "dragon").2.2 (by decide)⟩

/-- The invariant holds initially. -/
theorem authInv_initial : AuthInv initialAuthState := by
  simp [AuthInv, initialAuthState]

/-- `authenticate` preserves the session invariant. -/
theorem authInv_authenticate (remote : Remote) (s : SysState) (k p : String)
    (h : AuthInv s.auth) : AuthInv (AuthManager.authenticate remote s k p).1.auth := by
  unfold AuthManager.authenticate
  by_cases hc : k = "" ∨ p = ""
  · rw [if_pos hc]; exact h
  · rw [if_neg hc]
    cases hrem : remote k p with
    | error msg => simp [AuthManager.clearAuth, AuthInv, initialAuthState]
    | ok w =>
      cases w with
      | none => simp [AuthManager.clearAuth, AuthInv, initialAuthState]
      | some w => simp [AuthManager.saveCredentials, AuthInv]

/-- `tryAutoAuth` with an empty storage slot. -/
theorem tryAutoAuth_storage_none (remote : Remote) (s : SysState) (hst : s.storage = none) :
    AuthManager.tryAutoAuth remote s = (s, .ok false) := by
  unfold AuthManager.tryAutoAuth; rw [hst]

/-- `tryAutoAuth` with a filled storage slot. -/
theorem tryAutoAuth_storage_some (remote : Remote) (s : SysState) (k p : String)
    (hst : s.storage = some (k, p)) :
    AuthManager.tryAutoAuth remote s =
      if k = "" ∨ p = "" then (s, .ok false)
      else
        match AuthManager.authenticate remote s k p with
        | (s1, .ok _) => (s1, .ok true)
        | (s1, .error e) => (AuthManager.clearStorage s1, .error e) := by
  unfold AuthManager.tryAutoAuth; rw [hst]

/-- `tryAutoAuth` preserves the session invariant. -/
theorem authInv_tryAutoAuth (remote : Remote) (s : SysState)
    (h : AuthInv s.auth) : AuthInv (AuthManager.tryAutoAuth remote s).1.auth := by
  rcases hst : s.storage with _ | ⟨k, p⟩
  · rw [tryAutoAuth_storage_none remote s hst]; exact h
  · rw [tryAutoAuth_storage_some remote s k p hst]
    by_cases hc : k = "" ∨ p = ""
    · rw [if_pos hc]; exact h
    · rw [if_neg hc]
      have hainv := authInv_authenticate remote s k p h
      rcases hres : AuthManager.authenticate remote s k p with ⟨s1, r⟩
      rw [hres] at hainv
      cases r with
      | ok b => exact hainv
      | error e => simpa [AuthManager.clearStorage] using hainv

/-- `logout` re-establishes the session invariant. -/
theorem authInv_logout (s : SysState) : AuthInv (AuthManager.logout s).auth := by
  simp [AuthManager.logout, AuthManager.clearAuth, AuthManager.clearStorage, AuthInv,
    initialAuthState]

/-- Claim C6. In every session state reachable through `authenticate`,
`tryAutoAuth` and `logout`, `isAuthenticated == true` holds if and only if
both the client handle and the world record are non-null. -/
theorem reachable_auth_invariant (s : SysState) (h : Reachable s) :
    AuthManager.isAuthenticated s = true ↔ s.auth.client ≠ none ∧ s.auth.world ≠ none := by
  have hinv : AuthInv s.auth := by
    induction h with
    | start st => exact authInv_initial
    | stepAuthenticate remote k p _ ih => exact authInv_authenticate _ _ _ _ ih
    | stepTryAutoAuth remote _ ih => exact authInv_tryAutoAuth _ _ ih
    | stepLogout _ _ => exact authInv_logout _
  simpa [AuthInv, AuthManager.isAuthenticated] using hinv

/-- Witness for C6 at the state reached by one successful authentication. -/
theorem reachable_auth_invariant_witness :
    AuthManager.isAuthenticated
        (AuthManager.authenticate remoteOk ⟨initialAuthState, none⟩ "k" "p").1 = true ↔
      (AuthManager.authenticate remoteOk ⟨initialAuthState, none⟩ "k" "p").1.auth.client ≠ none ∧
      (AuthManager.authenticate remoteOk ⟨initialAuthState, none⟩ "k" "p").1.auth.world ≠ none :=
  reachable_auth_invariant _ (Reachable.stepAuthenticate remoteOk "k" "p" (Reachable.start none))

end BuriedGiant
